import Mathlib

/-!
Verification of the authentication and credential-storage core of the
ConnectionDB application (`src/app.py`).

The in-scope code is:

* `hash_password` / `verify_password` (PBKDF2-based password hashing),
* `ensure_users_file` / `load_users` / `save_users` (the JSON credential
  store), and
* the `do_login` / `change_password` route handlers.

Modelling conventions:

* Bytes are `Nat` values (well-formedness `b < 256` is carried as a
  hypothesis where it matters); byte strings are `List Nat`.
* `hashlib.pbkdf2_hmac("sha256", pw, salt, iters)` is an opaque
  cryptographic primitive; every definition is parameterised by an
  arbitrary function `kdf : KDF` standing for it.  The iteration count
  (200000), the UTF-8 encoding of the password, the hex encodings, the
  `$`-delimited format and the constant-time comparison are all modelled
  explicitly from the source.
* `secrets.token_bytes(16)` (fresh random salts) is modelled by passing
  the drawn salt as an explicit argument; its contract (16 bytes, each
  `< 256`) becomes a hypothesis.
* The file system holding `users.json` is a state `Store`:
  `none` when the file is absent, `some c` when it holds content `c`;
  content either parses as a JSON string-to-string object (`good`) or
  does not (`corrupt`).
-/

/-- The hex digit alphabet used by Python's `bytes.hex()` (lowercase). -/
def hexChars : List Char := "0123456789abcdef".data

/-- The hex digit for a value `n < 16`. -/
def hexDigit (n : Nat) : Char := hexChars.getD n '*'

/-- Two-digit lowercase hex encoding of one byte, as in `bytes.hex()`. -/
def byteToHex (b : Nat) : List Char := [hexDigit (b / 16), hexDigit (b % 16)]

/-- Lowercase hex encoding of a byte string, as in `bytes.hex()`. -/
def bytesToHex (bs : List Nat) : List Char := (bs.map byteToHex).flatten

/-- Value of a single hex digit, accepting both cases, as `bytes.fromhex`
does: decimal digits, then the lowercase and the uppercase letter ranges. -/
def hexVal? (c : Char) : Option Nat :=
  if '0' ≤ c ∧ c ≤ '9' then some (c.toNat - '0'.toNat)
  else if 'a' ≤ c ∧ c ≤ 'f' then some (c.toNat - 'a'.toNat + 10)
  else if 'A' ≤ c ∧ c ≤ 'F' then some (c.toNat - 'A'.toNat + 10)
  else none

/-- Decoder underlying `bytes.fromhex`: pairs of hex digits, with spaces
allowed between byte pairs; `none` models the `ValueError` raised on
malformed input. -/
def fromHexAux : List Char → Option (List Nat)
  | [] => some []
  | c1 :: rest =>
    if c1 = ' ' then fromHexAux rest
    else
      match rest with
      | [] => none
      | c2 :: rest2 =>
        match hexVal? c1, hexVal? c2, fromHexAux rest2 with
        | some d1, some d2, some bs => some ((d1 * 16 + d2) :: bs)
        | _, _, _ => none

/-- Python's `bytes.fromhex` on a string. -/
def fromHex (s : String) : Option (List Nat) := fromHexAux s.data

/-- UTF-8 encoding of one code point (what `str.encode("utf-8")` does per
character). -/
def utf8EncodeChar (n : Nat) : List Nat :=
  if n < 0x80 then [n]
  else if n < 0x800 then [0xC0 + n / 64, 0x80 + n % 64]
  else if n < 0x10000 then [0xE0 + n / 4096, 0x80 + n / 64 % 64, 0x80 + n % 64]
  else [0xF0 + n / 262144, 0x80 + n / 4096 % 64, 0x80 + n / 64 % 64, 0x80 + n % 64]

/-- Python's `str.encode("utf-8")` as a byte string. -/
def utf8Encode (s : String) : List Nat :=
  (s.data.map (fun c => utf8EncodeChar c.toNat)).flatten

/-- Python's `str.split(sep)` for a one-character separator `c` (no maxsplit):
always returns at least one piece, and the empty string splits to `[""]`. -/
def splitCh (c : Char) : List Char → List (List Char)
  | [] => [[]]
  | x :: xs =>
    if x = c then [] :: splitCh c xs
    else
      match splitCh c xs with
      | [] => [[x]]
      | g :: gs => (x :: g) :: gs

/-- Accumulator loop of a constant-time comparison: visits every position of
both inputs, accumulating a mismatch count, with no early exit. -/
def tscmpAux : List Char → List Char → Nat → Nat
  | [], [], r => r
  | x :: xs, y :: ys, r => tscmpAux xs ys (r + (if x = y then 0 else 1))
  | _, _, r => r + 1

/-- Python's `secrets.compare_digest` on ASCII strings: equal lengths and a
zero accumulated difference.  The loop `tscmpAux` never short-circuits. -/
def compare_digest (a b : List Char) : Bool :=
  (a.length == b.length) && (tscmpAux a b 0 == 0)

/-- Number of loop steps `tscmpAux` performs; used to state that the
comparison path length is independent of the inputs' contents. -/
def tscmpSteps : List Char → List Char → Nat
  | [], [] => 0
  | _ :: xs, _ :: ys => tscmpSteps xs ys + 1
  | _, _ => 0

/-- Type of the opaque key-derivation primitive
`hashlib.pbkdf2_hmac("sha256", passwordBytes, salt, iterations)`. -/
def KDF : Type := List Nat → List Nat → Nat → List Nat

/-- Lean model of `hash_password(password, salt)` (src/app.py lines 28-35)
for an already-drawn salt: returns `salt.hex() + "$" + dk.hex()` where
`dk = pbkdf2_hmac("sha256", password.encode("utf-8"), salt, 200_000)`.
The `salt is None` branch draws `secrets.token_bytes(16)`; callers model it
by passing the freshly drawn salt here. -/
def hash_password (kdf : KDF) (password : String) (salt : List Nat) : String :=
  String.mk (bytesToHex salt ++ '$' :: bytesToHex (kdf (utf8Encode password) salt 200000))

/-- Lean model of `verify_password(password, stored)` (src/app.py lines
37-44): split on `$` into exactly two fields, hex-decode the salt, recompute
the derived key with 200000 iterations and compare hex strings with
`secrets.compare_digest`; any failure (wrong field count, bad hex) is caught
and yields `false`. -/
def verify_password (kdf : KDF) (password : String) (stored : String) : Bool :=
  match splitCh '$' stored.data with
  | [saltHex, hashHex] =>
    match fromHexAux saltHex with
    | some salt => compare_digest (bytesToHex (kdf (utf8Encode password) salt 200000)) hashHex
    | none => false
  | _ => false

/-- A small concrete instance of the `KDF` interface, used to evaluate the
parameterised theorems on closed inputs: one output byte, the sum of the
password bytes and salt bytes modulo 256. -/
def kdfW : KDF := fun pw s _ => [(pw.foldl (· + ·) 0 + s.foldl (· + ·) 0) % 256]

/-- Specification-side restatement of the hash construction, following the
spec's words: derived key from the KDF at 200000 iterations on the UTF-8
password bytes and the salt, output `hex(salt) + "$" + hex(derived_key)`.
Used only to compare against `hash_password` as embedded from the source. -/
def hashSpec (kdf : KDF) (password : String) (salt : List Nat) : String :=
  String.mk (bytesToHex salt) ++ "$" ++
    String.mk (bytesToHex (kdf (utf8Encode password) salt 200000))

/-- The `users.json` mapping of username to stored hash, as an association
list with Python-dict lookup/update semantics. -/
def Users : Type := List (String × String)

/-- Python `dict.get`: the value at the first matching key, else `none`. -/
def dictGet : List (String × String) → String → Option String
  | [], _ => none
  | (k, v) :: rest, key => if k = key then some v else dictGet rest key

/-- Python `d[key] = value`: replace the value at an existing key in place,
else append a new entry. -/
def dictSet : List (String × String) → String → String → List (String × String)
  | [], key, value => [(key, value)]
  | (k, v) :: rest, key, value =>
    if k = key then (key, value) :: rest else (k, v) :: dictSet rest key value

/-- Content of the `users.json` file: either text that `json.load` parses as
a string-to-string object, or text it rejects (raising `JSONDecodeError`). -/
inductive FileContent : Type where
  | good (users : List (String × String))
  | corrupt
deriving DecidableEq

/-- State of the file system at `users.json`: `none` when the file is
absent. -/
def Store : Type := Option FileContent

/-- Username of the hardcoded `DEFAULT_ADMIN` account (src/app.py line 19). -/
def DEFAULT_ADMIN_username : String := "admin"

/-- Password of the hardcoded `DEFAULT_ADMIN` account (src/app.py line 19). -/
def DEFAULT_ADMIN_password : String := "secret123"

/-- Lean model of `ensure_users_file()` (src/app.py lines 47-53): when the
file is absent, create it with the single default admin entry, hashed with a
freshly drawn salt `bootSalt`; otherwise leave the file untouched. -/
def ensure_users_file (kdf : KDF) (bootSalt : List Nat) (st : Store) : Store :=
  match st with
  | none =>
    some (FileContent.good
      [(DEFAULT_ADMIN_username, hash_password kdf DEFAULT_ADMIN_password bootSalt)])
  | some c => some c

/-- The error `load_users` fails with when `users.json` does not parse:
`json.load` raises `JSONDecodeError`, which `load_users` does not catch. -/
inductive LoadError : Type where
  | corruptStore
deriving DecidableEq

/-- Lean model of `load_users()` (src/app.py lines 55-58): first
`ensure_users_file()`, then read and `json.load` the file; unparsable
content is a loud failure, never an empty mapping. -/
def load_users (kdf : KDF) (bootSalt : List Nat) (st : Store) :
    Except LoadError (List (String × String)) × Store :=
  match ensure_users_file kdf bootSalt st with
  | some (FileContent.good users) => (Except.ok users, some (FileContent.good users))
  | _ => (Except.error LoadError.corruptStore, ensure_users_file kdf bootSalt st)

/-- Lean model of `save_users(users)` (src/app.py lines 60-62): overwrite the
file with the full mapping. -/
def save_users (users : List (String × String)) (_st : Store) : Store :=
  some (FileContent.good users)

/-- Outcome of `do_login` as seen by the client. -/
inductive LoginResult : Type where
  /-- Redirect with the session bound to the given username. -/
  | success (username : String)
  /-- The single generic "Invalid credentials" page. -/
  | invalid
  /-- A `JSONDecodeError` escaping from `load_users` (5xx). -/
  | storeError
deriving DecidableEq

/-- Lean model of `do_login` (src/app.py lines 101-109): load the users,
look up the username, and test `stored and verify_password(password, stored)`
(Python truthiness: an empty stored string is falsy); on success bind the
session to the username, on either failure render the one generic
"Invalid credentials" error. -/
def do_login (kdf : KDF) (bootSalt : List Nat) (username password : String)
    (st : Store) : LoginResult × Store :=
  match load_users kdf bootSalt st with
  | (Except.ok users, st') =>
    match dictGet users username with
    | some stored =>
      if stored ≠ "" ∧ verify_password kdf password stored = true then
        (LoginResult.success username, st')
      else (LoginResult.invalid, st')
    | none => (LoginResult.invalid, st')
  | (Except.error _, st') => (LoginResult.storeError, st')

/-- Outcome of `change_password` as seen by the client. -/
inductive ChangeResult : Type where
  /-- Redirect to the login page: no session user. -/
  | redirectLogin
  /-- The "Current password incorrect" error page. -/
  | errCurrent
  /-- The "Passwords do not match" error page. -/
  | errMismatch
  /-- The "Password updated" success page. -/
  | success
  /-- A `JSONDecodeError` escaping from `load_users` (5xx). -/
  | storeError
deriving DecidableEq

/-- Lean model of `change_password` (src/app.py lines 184-197): require a
session user; load the users; reject with "Current password incorrect" when
the stored hash is missing, empty or does not verify the current password;
reject with "Passwords do not match" when the confirmation differs; otherwise
install `hash_password(new_password)` under a freshly drawn salt
`changeSalt` and write the whole mapping back with `save_users`. -/
def change_password (kdf : KDF) (bootSalt changeSalt : List Nat)
    (sessionUser : Option String) (current new_password confirm : String)
    (st : Store) : ChangeResult × Store :=
  match sessionUser with
  | none => (ChangeResult.redirectLogin, st)
  | some username =>
    match load_users kdf bootSalt st with
    | (Except.ok users, st') =>
      match dictGet users username with
      | none => (ChangeResult.errCurrent, st')
      | some stored =>
        if stored = "" then (ChangeResult.errCurrent, st')
        else if verify_password kdf current stored = false then
          (ChangeResult.errCurrent, st')
        else if new_password ≠ confirm then (ChangeResult.errMismatch, st')
        else
          (ChangeResult.success,
            save_users
              (dictSet users username (hash_password kdf new_password changeSalt)) st')
    | (Except.error _, st') => (ChangeResult.storeError, st')

/-! ### Helper lemmas about the hex encoding -/

theorem hexDigit_ne_dollar (n : Nat) : hexDigit n ≠ '$' := by
  unfold hexDigit
  rcases Nat.lt_or_ge n hexChars.length with h | h
  · rw [List.getD_eq_getElem _ _ h]
    have hall : ∀ i, (hi : i < hexChars.length) → hexChars[i] ≠ '$' := by decide
    exact hall n h
  · rw [List.getD_eq_default _ _ h]; decide

theorem hexDigit_ne_space (n : Nat) : hexDigit n ≠ ' ' := by
  unfold hexDigit
  rcases Nat.lt_or_ge n hexChars.length with h | h
  · rw [List.getD_eq_getElem _ _ h]
    have hall : ∀ i, (hi : i < hexChars.length) → hexChars[i] ≠ ' ' := by decide
    exact hall n h
  · rw [List.getD_eq_default _ _ h]; decide

theorem bytesToHex_cons (b : Nat) (bs : List Nat) :
    bytesToHex (b :: bs) = byteToHex b ++ bytesToHex bs := rfl

theorem dollar_not_mem_bytesToHex (bs : List Nat) : '$' ∉ bytesToHex bs := by
  intro h
  unfold bytesToHex at h
  rw [List.mem_flatten] at h
  obtain ⟨l, hl, hc⟩ := h
  rw [List.mem_map] at hl
  obtain ⟨b, _, rfl⟩ := hl
  unfold byteToHex at hc
  rcases List.mem_cons.mp hc with h | h
  · exact hexDigit_ne_dollar _ h.symm
  · rcases List.mem_cons.mp h with h | h
    · exact hexDigit_ne_dollar _ h.symm
    · exact absurd h (List.not_mem_nil _)

theorem length_bytesToHex (bs : List Nat) : (bytesToHex bs).length = 2 * bs.length := by
  induction bs with
  | nil => rfl
  | cons b bs ih =>
    rw [bytesToHex_cons, List.length_append, ih]
    simp [byteToHex]
    omega

theorem hexVal_hexDigit : ∀ d, d < 16 → hexVal? (hexDigit d) = some d := by decide

theorem fromHexAux_bytesToHex : ∀ bs : List Nat, (∀ b ∈ bs, b < 256) →
    fromHexAux (bytesToHex bs) = some bs := by
  intro bs
  induction bs with
  | nil => intro _; rfl
  | cons b bs ih =>
    intro h
    have hb : b < 256 := h b (List.mem_cons_self _ _)
    have h16a : b / 16 < 16 := by omega
    have h16b : b % 16 < 16 := by omega
    rw [bytesToHex_cons]
    show fromHexAux (hexDigit (b / 16) :: hexDigit (b % 16) :: bytesToHex bs) = _
    rw [fromHexAux, if_neg (hexDigit_ne_space _)]
    rw [hexVal_hexDigit _ h16a, hexVal_hexDigit _ h16b,
      ih (fun x hx => h x (List.mem_cons_of_mem _ hx))]
    show some ((b / 16 * 16 + b % 16) :: bs) = some (b :: bs)
    have hdm : b / 16 * 16 + b % 16 = b := by omega
    rw [hdm]

/-! ### Helper lemmas about splitting on the delimiter -/

theorem splitCh_of_not_mem {c : Char} : ∀ {l : List Char}, c ∉ l → splitCh c l = [l] := by
  intro l
  induction l with
  | nil => intro _; rfl
  | cons x xs ih =>
    intro h
    have hx : x ≠ c := fun he => h (he ▸ List.mem_cons_self _ _)
    rw [splitCh, if_neg hx, ih (fun hm => h (List.mem_cons_of_mem _ hm))]

theorem splitCh_append {c : Char} : ∀ (a b : List Char), c ∉ a →
    splitCh c (a ++ c :: b) = a :: splitCh c b := by
  intro a
  induction a with
  | nil =>
    intro b _
    show splitCh c (c :: b) = [] :: splitCh c b
    rw [splitCh, if_pos rfl]
  | cons x a' ih =>
    intro b h
    have hx : x ≠ c := fun he => h (he ▸ List.mem_cons_self _ _)
    rw [List.cons_append, splitCh, if_neg hx, ih b (fun hm => h (List.mem_cons_of_mem _ hm))]

/-! ### Helper lemmas about the constant-time comparison -/

theorem tscmpAux_eq_zero : ∀ (xs ys : List Char) (r : Nat),
    tscmpAux xs ys r = 0 ↔ r = 0 ∧ xs = ys := by
  intro xs
  induction xs with
  | nil =>
    intro ys r
    cases ys with
    | nil => simp [tscmpAux]
    | cons y ys => simp [tscmpAux]
  | cons x xs ih =>
    intro ys r
    cases ys with
    | nil => simp [tscmpAux]
    | cons y ys =>
      show tscmpAux xs ys (r + if x = y then 0 else 1) = 0 ↔ _
      rw [ih ys (r + if x = y then 0 else 1)]
      by_cases hxy : x = y
      · simp [hxy]
      · simp [hxy]

theorem compare_digest_eq_true_iff (a b : List Char) : compare_digest a b = true ↔ a = b := by
  unfold compare_digest
  rw [Bool.and_eq_true, beq_iff_eq, beq_iff_eq, tscmpAux_eq_zero]
  constructor
  · rintro ⟨_, _, h⟩; exact h
  · rintro rfl; exact ⟨rfl, rfl, rfl⟩

theorem tscmpSteps_eq_min : ∀ (a b : List Char), tscmpSteps a b = min a.length b.length := by
  intro a
  induction a with
  | nil => intro b; cases b <;> simp [tscmpSteps]
  | cons x xs ih =>
    intro b
    cases b with
    | nil => simp [tscmpSteps]
    | cons y ys =>
      show tscmpSteps xs ys + 1 = _
      rw [ih ys]
      simp only [List.length_cons]
      omega

/-! ### Helper lemmas about hashing and verification -/

theorem hash_password_data (kdf : KDF) (p : String) (s : List Nat) :
    (hash_password kdf p s).data =
      bytesToHex s ++ '$' :: bytesToHex (kdf (utf8Encode p) s 200000) := rfl

theorem bytesToHex_inj {bs1 bs2 : List Nat} (h1 : ∀ b ∈ bs1, b < 256)
    (h2 : ∀ b ∈ bs2, b < 256) (h : bytesToHex bs1 = bytesToHex bs2) : bs1 = bs2 := by
  have e1 := fromHexAux_bytesToHex bs1 h1
  rw [h, fromHexAux_bytesToHex bs2 h2] at e1
  exact (Option.some.inj e1).symm

theorem verify_hash_password (kdf : KDF) (p : String) (s : List Nat)
    (h : ∀ b ∈ s, b < 256) :
    verify_password kdf p (hash_password kdf p s) = true := by
  unfold verify_password
  rw [hash_password_data, splitCh_append _ _ (dollar_not_mem_bytesToHex s),
    splitCh_of_not_mem (dollar_not_mem_bytesToHex _)]
  show (match fromHexAux (bytesToHex s) with
    | some salt =>
      compare_digest (bytesToHex (kdf (utf8Encode p) salt 200000))
        (bytesToHex (kdf (utf8Encode p) s 200000))
    | none => false) = true
  rw [fromHexAux_bytesToHex s h]
  exact (compare_digest_eq_true_iff _ _).mpr rfl

theorem verify_other_hash_password (kdf : KDF) (q p : String) (s : List Nat)
    (h : ∀ b ∈ s, b < 256) :
    verify_password kdf q (hash_password kdf p s) =
      compare_digest (bytesToHex (kdf (utf8Encode q) s 200000))
        (bytesToHex (kdf (utf8Encode p) s 200000)) := by
  unfold verify_password
  rw [hash_password_data, splitCh_append _ _ (dollar_not_mem_bytesToHex s),
    splitCh_of_not_mem (dollar_not_mem_bytesToHex _)]
  show (match fromHexAux (bytesToHex s) with
    | some salt =>
      compare_digest (bytesToHex (kdf (utf8Encode q) salt 200000))
        (bytesToHex (kdf (utf8Encode p) s 200000))
    | none => false) = _
  rw [fromHexAux_bytesToHex s h]

theorem verify_password_empty (kdf : KDF) (p : String) :
    verify_password kdf p "" = false := rfl

theorem hash_password_ne_of_salt_ne (kdf : KDF) (p : String) {s1 s2 : List Nat}
    (h1 : ∀ b ∈ s1, b < 256) (h2 : ∀ b ∈ s2, b < 256)
    (hlen : s1.length = s2.length) (hne : s1 ≠ s2) :
    hash_password kdf p s1 ≠ hash_password kdf p s2 := by
  intro he
  have hd := congrArg String.data he
  rw [hash_password_data, hash_password_data] at hd
  have hlen2 : (bytesToHex s1).length = (bytesToHex s2).length := by
    rw [length_bytesToHex, length_bytesToHex, hlen]
  obtain ⟨hs, _⟩ := List.append_inj hd hlen2
  exact hne (bytesToHex_inj h1 h2 hs)

/-! ### Helper lemmas about the dictionary operations -/

theorem dictGet_dictSet_self : ∀ (users : List (String × String)) (k v : String),
    dictGet (dictSet users k v) k = some v := by
  intro users k v
  induction users with
  | nil => simp [dictGet, dictSet]
  | cons e rest ih =>
    obtain ⟨k0, v0⟩ := e
    by_cases hk : k0 = k
    · simp [dictGet, dictSet, hk]
    · simp [dictGet, dictSet, hk, ih]

theorem dictGet_dictSet_ne : ∀ (users : List (String × String)) (k v k' : String),
    k' ≠ k → dictGet (dictSet users k v) k' = dictGet users k' := by
  intro users k v k' hne
  induction users with
  | nil => simp [dictGet, dictSet, Ne.symm hne]
  | cons e rest ih =>
    obtain ⟨k0, v0⟩ := e
    by_cases hk : k0 = k
    · subst hk
      simp [dictGet, dictSet, Ne.symm hne]
    · by_cases hk' : k0 = k'
      · simp [dictGet, dictSet, hk, hk', hne]
      · simp [dictGet, dictSet, hk, hk', ih]

theorem keys_dictSet : ∀ (users : List (String × String)) (k v : String),
    (dictGet users k).isSome → (dictSet users k v).map Prod.fst = users.map Prod.fst := by
  intro users k v
  induction users with
  | nil => intro h; simp [dictGet] at h
  | cons e rest ih =>
    obtain ⟨k0, v0⟩ := e
    intro h
    by_cases hk : k0 = k
    · simp [dictSet, hk]
    · simp [dictGet, hk] at h
      simp [dictSet, dictGet, hk, ih h]

/-! ### The claims -/

/-- C1: for every password `p` and every salt of bytes (in particular every
randomly generated 16-byte salt), `verify_password p (hash_password p s)`
returns `true`; and two calls of `hash_password p` that draw distinct fresh
16-byte salts produce two different output strings, both of which verify
against `p`. -/
theorem claim_C1 (kdf : KDF) (p : String) (s s1 s2 : List Nat)
    (hs : ∀ b ∈ s, b < 256)
    (h1 : ∀ b ∈ s1, b < 256) (h2 : ∀ b ∈ s2, b < 256)
    (hlen1 : s1.length = 16) (hlen2 : s2.length = 16) (hne : s1 ≠ s2) :
    verify_password kdf p (hash_password kdf p s) = true ∧
    hash_password kdf p s1 ≠ hash_password kdf p s2 ∧
    verify_password kdf p (hash_password kdf p s1) = true ∧
    verify_password kdf p (hash_password kdf p s2) = true :=
  ⟨verify_hash_password kdf p s hs,
   hash_password_ne_of_salt_ne kdf p h1 h2 (by rw [hlen1, hlen2]) hne,
   verify_hash_password kdf p s1 h1,
   verify_hash_password kdf p s2 h2⟩

/-- Witness for C1 at a concrete KDF instance, password and salts. -/
theorem claim_C1_witness :
    verify_password kdfW "pw" (hash_password kdfW "pw" [1, 2]) = true ∧
    hash_password kdfW "pw" (List.replicate 16 0) ≠
      hash_password kdfW "pw" (1 :: List.replicate 15 0) ∧
    verify_password kdfW "pw" (hash_password kdfW "pw" (List.replicate 16 0)) = true ∧
    verify_password kdfW "pw" (hash_password kdfW "pw" (1 :: List.replicate 15 0)) = true :=
  claim_C1 kdfW "pw" [1, 2] (List.replicate 16 0) (1 :: List.replicate 15 0)
    (by decide) (by decide) (by decide) (by decide) (by decide) (by decide)

/-- C2: for every password and salt, `hash_password` agrees with the spec's
construction `hex(salt) + "$" + hex(KDF(utf8(password), salt, 200000))`;
the output splits at the single `$` back into the two hex fields, the salt
field hex-decodes to the salt that was passed (so an omitted salt argument
is replaced by exactly the 16 freshly drawn bytes), and a 16-byte salt
yields a 32-character salt field. -/
theorem claim_C2 (kdf : KDF) (p : String) (s : List Nat) (h : ∀ b ∈ s, b < 256) :
    hash_password kdf p s = hashSpec kdf p s ∧
    splitCh '$' (hash_password kdf p s).data =
      [bytesToHex s, bytesToHex (kdf (utf8Encode p) s 200000)] ∧
    fromHexAux (bytesToHex s) = some s ∧
    (s.length = 16 → (bytesToHex s).length = 32) := by
  refine ⟨?_, ?_, fromHexAux_bytesToHex s h, ?_⟩
  · show String.mk (bytesToHex s ++ '$' :: bytesToHex (kdf (utf8Encode p) s 200000)) =
      String.mk ((bytesToHex s ++ ['$']) ++ bytesToHex (kdf (utf8Encode p) s 200000))
    exact congrArg String.mk (by simp)
  · rw [hash_password_data, splitCh_append _ _ (dollar_not_mem_bytesToHex s),
      splitCh_of_not_mem (dollar_not_mem_bytesToHex _)]
  · intro h16
    rw [length_bytesToHex, h16]

/-- Witness for C2 at a concrete KDF instance, password and salt. -/
theorem claim_C2_witness :
    hash_password kdfW "pw" [0, 255] = hashSpec kdfW "pw" [0, 255] ∧
    splitCh '$' (hash_password kdfW "pw" [0, 255]).data =
      [bytesToHex [0, 255], bytesToHex (kdfW (utf8Encode "pw") [0, 255] 200000)] ∧
    fromHexAux (bytesToHex [0, 255]) = some [0, 255] ∧
    ([0, 255].length = 16 → (bytesToHex ([0, 255] : List Nat)).length = 32) :=
  claim_C2 kdfW "pw" [0, 255] (by decide)

/-- C3: `verify_password` is total and returns `false` on every malformed
stored string: on the empty string, on a string with no `$`, on any string
that does not split into exactly two fields, and on any string whose salt
field is not valid hex. -/
theorem claim_C3 (kdf : KDF) (p : String) :
    verify_password kdf p "" = false ∧
    verify_password kdf p "not-a-valid-format" = false ∧
    (∀ stored : String, (splitCh '$' stored.data).length ≠ 2 →
      verify_password kdf p stored = false) ∧
    (∀ stored : String, ∀ a b : List Char, splitCh '$' stored.data = [a, b] →
      fromHexAux a = none → verify_password kdf p stored = false) := by
  refine ⟨rfl, rfl, ?_, ?_⟩
  · intro stored h
    unfold verify_password
    rcases hs : splitCh '$' stored.data with _ | ⟨a, _ | ⟨b, _ | ⟨c, t⟩⟩⟩
    · rfl
    · rfl
    · rw [hs] at h
      exact absurd rfl h
    · rfl
  · intro stored a b hs hn
    unfold verify_password
    rw [hs]
    show (match fromHexAux a with
      | some salt =>
        compare_digest (bytesToHex (kdf (utf8Encode p) salt 200000)) b
      | none => false) = false
    rw [hn]

/-- Witness for C3 at a concrete KDF instance and password, exercising the
wrong-field-count and bad-hex hypotheses on concrete stored strings. -/
theorem claim_C3_witness :
    verify_password kdfW "pw" "" = false ∧
    verify_password kdfW "pw" "not-a-valid-format" = false ∧
    verify_password kdfW "pw" "a$b$c" = false ∧
    verify_password kdfW "pw" "zz$00" = false := by
  obtain ⟨w1, w2, w3, w4⟩ := claim_C3 kdfW "pw"
  exact ⟨w1, w2, w3 "a$b$c" (by decide), w4 "zz$00" ['z', 'z'] ['0', '0'] (by decide) (by decide)⟩

/-- C4: on a well-formed stored string `saltHex$hashHex`, `verify_password`
compares the hex of the recomputed derived key against the stored `hashHex`
using `compare_digest`; `compare_digest` decides exactly string equality,
and the number of loop steps of its non-short-circuiting comparison depends
only on the lengths of the two inputs, never on where the first mismatch
occurs. -/
theorem claim_C4 :
    (∀ (kdf : KDF) (p : String) (saltHex hashHex : List Char) (salt : List Nat),
      '$' ∉ saltHex → '$' ∉ hashHex → fromHexAux saltHex = some salt →
      verify_password kdf p (String.mk (saltHex ++ '$' :: hashHex)) =
        compare_digest (bytesToHex (kdf (utf8Encode p) salt 200000)) hashHex) ∧
    (∀ a b : List Char, compare_digest a b = true ↔ a = b) ∧
    (∀ a b a' b' : List Char, a.length = a'.length → b.length = b'.length →
      tscmpSteps a b = tscmpSteps a' b') := by
  refine ⟨?_, compare_digest_eq_true_iff, ?_⟩
  · intro kdf p saltHex hashHex salt hs hh hdec
    unfold verify_password
    rw [show (String.mk (saltHex ++ '$' :: hashHex)).data = saltHex ++ '$' :: hashHex from rfl,
      splitCh_append _ _ hs, splitCh_of_not_mem hh]
    show (match fromHexAux saltHex with
      | some salt =>
        compare_digest (bytesToHex (kdf (utf8Encode p) salt 200000)) hashHex
      | none => false) = _
    rw [hdec]
  · intro a b a' b' ha hb
    rw [tscmpSteps_eq_min, tscmpSteps_eq_min, ha, hb]

/-- Witness for C4 at concrete inputs: a well-formed stored string, a
concrete comparison, and two pairs of strings of matching lengths whose
first mismatches occur at different positions. -/
theorem claim_C4_witness :
    verify_password kdfW "pw" (String.mk (['0', '1'] ++ '$' :: ['a', 'b'])) =
      compare_digest (bytesToHex (kdfW (utf8Encode "pw") [1] 200000)) ['a', 'b'] ∧
    (compare_digest ['x', 'y'] ['x', 'z'] = true ↔ (['x', 'y'] : List Char) = ['x', 'z']) ∧
    tscmpSteps ['q', 'b', 'c'] ['x', 'b', 'c'] = tscmpSteps ['a', 'b', 'q'] ['a', 'b', 'x'] :=
  ⟨claim_C4.1 kdfW "pw" ['0', '1'] ['a', 'b'] [1] (by decide) (by decide) (by decide),
   claim_C4.2.1 ['x', 'y'] ['x', 'z'],
   claim_C4.2.2 ['q', 'b', 'c'] ['x', 'b', 'c'] ['a', 'b', 'q'] ['a', 'b', 'x']
     (by decide) (by decide)⟩

/-- C5: from an absent store, `ensure_users_file` creates exactly the
one-entry mapping of the default admin username to a hash of the default
password, a subsequent `load_users` returns exactly that mapping, the
created hash verifies the default password; and when the file already
exists, `ensure_users_file` leaves it unchanged. -/
theorem claim_C5 (kdf : KDF) (bootSalt : List Nat) (h : ∀ b ∈ bootSalt, b < 256) :
    ensure_users_file kdf bootSalt none =
      some (FileContent.good
        [(DEFAULT_ADMIN_username, hash_password kdf DEFAULT_ADMIN_password bootSalt)]) ∧
    (load_users kdf bootSalt none).fst =
      Except.ok
        [(DEFAULT_ADMIN_username, hash_password kdf DEFAULT_ADMIN_password bootSalt)] ∧
    verify_password kdf DEFAULT_ADMIN_password
      (hash_password kdf DEFAULT_ADMIN_password bootSalt) = true ∧
    (∀ c : FileContent, ensure_users_file kdf bootSalt (some c) = some c) :=
  ⟨rfl, rfl, verify_hash_password kdf DEFAULT_ADMIN_password bootSalt h, fun _ => rfl⟩

/-- Witness for C5 at a concrete KDF instance and boot salt. -/
theorem claim_C5_witness :
    ensure_users_file kdfW [9] none =
      some (FileContent.good
        [(DEFAULT_ADMIN_username, hash_password kdfW DEFAULT_ADMIN_password [9])]) ∧
    (load_users kdfW [9] none).fst =
      Except.ok [(DEFAULT_ADMIN_username, hash_password kdfW DEFAULT_ADMIN_password [9])] ∧
    verify_password kdfW DEFAULT_ADMIN_password
      (hash_password kdfW DEFAULT_ADMIN_password [9]) = true ∧
    (∀ c : FileContent, ensure_users_file kdfW [9] (some c) = some c) :=
  claim_C5 kdfW [9] (by decide)

/-! ### Unfolding lemmas for the route handlers on a well-formed store -/

theorem change_password_good (kdf : KDF) (bootSalt changeSalt : List Nat)
    (username current new_password confirm : String)
    (users : List (String × String)) :
    change_password kdf bootSalt changeSalt (some username) current new_password confirm
        (some (FileContent.good users)) =
      (match dictGet users username with
        | none => (ChangeResult.errCurrent, some (FileContent.good users))
        | some stored =>
          if stored = "" then (ChangeResult.errCurrent, some (FileContent.good users))
          else if verify_password kdf current stored = false then
            (ChangeResult.errCurrent, some (FileContent.good users))
          else if new_password ≠ confirm then
            (ChangeResult.errMismatch, some (FileContent.good users))
          else
            (ChangeResult.success,
              some (FileContent.good
                (dictSet users username (hash_password kdf new_password changeSalt))))) := rfl

theorem do_login_good (kdf : KDF) (bootSalt : List Nat) (username password : String)
    (users : List (String × String)) :
    do_login kdf bootSalt username password (some (FileContent.good users)) =
      (match dictGet users username with
        | some stored =>
          if stored ≠ "" ∧ verify_password kdf password stored = true then
            (LoginResult.success username, some (FileContent.good users))
          else (LoginResult.invalid, some (FileContent.good users))
        | none => (LoginResult.invalid, some (FileContent.good users))) := rfl

theorem do_login_found (kdf : KDF) (bootSalt : List Nat) (username password : String)
    (users : List (String × String)) (s : String)
    (hget : dictGet users username = some s) :
    do_login kdf bootSalt username password (some (FileContent.good users)) =
      (if s ≠ "" ∧ verify_password kdf password s = true then
        (LoginResult.success username, some (FileContent.good users))
      else (LoginResult.invalid, some (FileContent.good users))) := by
  rw [do_login_good, hget]

theorem do_login_notfound (kdf : KDF) (bootSalt : List Nat) (username password : String)
    (users : List (String × String)) (hget : dictGet users username = none) :
    do_login kdf bootSalt username password (some (FileContent.good users)) =
      (LoginResult.invalid, some (FileContent.good users)) := by
  rw [do_login_good, hget]

theorem hash_password_ne_empty (kdf : KDF) (p : String) (s : List Nat) :
    hash_password kdf p s ≠ "" := by
  intro h
  have hd := congrArg String.data h
  rw [hash_password_data] at hd
  simp at hd

theorem verify_true_ne_empty {kdf : KDF} {p stored : String}
    (h : verify_password kdf p stored = true) : stored ≠ "" := by
  intro he
  rw [he, verify_password_empty] at h
  exact Bool.false_ne_true h

/-- C6: with a logged-in username whose entry is present in a well-formed
store, `change_password` rejects with the current-password error and leaves
the store unchanged whenever the current password does not verify; and when
it verifies but the confirmation differs from the new password, it rejects
with the mismatch error, again leaving the store unchanged. -/
theorem claim_C6 (kdf : KDF) (bootSalt changeSalt : List Nat)
    (username : String) (users : List (String × String)) (stored : String)
    (hget : dictGet users username = some stored) :
    (∀ current new_password confirm : String,
      verify_password kdf current stored = false →
      change_password kdf bootSalt changeSalt (some username) current new_password confirm
          (some (FileContent.good users)) =
        (ChangeResult.errCurrent, some (FileContent.good users))) ∧
    (∀ current new_password confirm : String,
      verify_password kdf current stored = true → new_password ≠ confirm →
      change_password kdf bootSalt changeSalt (some username) current new_password confirm
          (some (FileContent.good users)) =
        (ChangeResult.errMismatch, some (FileContent.good users))) := by
  constructor
  · intro current new_password confirm hv
    rw [change_password_good, hget]
    by_cases h0 : stored = "" <;> simp [h0, hv]
  · intro current new_password confirm hv hnc
    rw [change_password_good, hget]
    simp [verify_true_ne_empty hv, hv, hnc]

/-- Witness for C6 at a concrete KDF instance and store: a wrong current
password is rejected, and a correct one with a non-matching confirmation is
rejected, both leaving the store unchanged. -/
theorem claim_C6_witness :
    change_password kdfW [9] [7] (some "admin") "wrong" "new" "new"
        (some (FileContent.good [("admin", hash_password kdfW "old" [4])])) =
      (ChangeResult.errCurrent,
        some (FileContent.good [("admin", hash_password kdfW "old" [4])])) ∧
    change_password kdfW [9] [7] (some "admin") "old" "new" "other"
        (some (FileContent.good [("admin", hash_password kdfW "old" [4])])) =
      (ChangeResult.errMismatch,
        some (FileContent.good [("admin", hash_password kdfW "old" [4])])) :=
  ⟨(claim_C6 kdfW [9] [7] "admin"
      [("admin", hash_password kdfW "old" [4])] (hash_password kdfW "old" [4]) rfl).1
    "wrong" "new" "new" (by decide),
   (claim_C6 kdfW [9] [7] "admin"
      [("admin", hash_password kdfW "old" [4])] (hash_password kdfW "old" [4]) rfl).2
    "old" "new" "other" (by decide) (by decide)⟩

/-- C8: on a well-formed store, login succeeds with the session bound to the
submitted username exactly when that username has an entry whose stored hash
verifies the submitted password; every failing login, whether the username
is absent or the password does not verify, produces the single generic
invalid-credentials outcome; and the store is not modified. -/
theorem claim_C8 (kdf : KDF) (bootSalt : List Nat) (username password : String)
    (users : List (String × String)) :
    ((do_login kdf bootSalt username password (some (FileContent.good users))).fst =
        LoginResult.success username ↔
      ∃ stored, dictGet users username = some stored ∧
        verify_password kdf password stored = true) ∧
    ((do_login kdf bootSalt username password (some (FileContent.good users))).fst =
        LoginResult.success username ∨
      (do_login kdf bootSalt username password (some (FileContent.good users))).fst =
        LoginResult.invalid) ∧
    (do_login kdf bootSalt username password (some (FileContent.good users))).snd =
      some (FileContent.good users) := by
  rcases hget : dictGet users username with _ | s
  · rw [do_login_notfound kdf bootSalt username password users hget]
    simp
  · rw [do_login_found kdf bootSalt username password users s hget]
    by_cases hc : s ≠ "" ∧ verify_password kdf password s = true
    · rw [if_pos hc]
      exact ⟨iff_of_true rfl ⟨s, rfl, hc.2⟩, Or.inl rfl, rfl⟩
    · rw [if_neg hc]
      refine ⟨?_, Or.inr rfl, rfl⟩
      constructor
      · intro h
        exact absurd h (by simp)
      · rintro ⟨stored, hst, hv⟩
        obtain rfl : s = stored := Option.some.inj hst
        exact absurd ⟨verify_true_ne_empty hv, hv⟩ hc

/-- Witness for C8 at a concrete KDF instance, credentials and store. -/
theorem claim_C8_witness :
    ((do_login kdfW [9] "admin" "pw" (some (FileContent.good [("admin", hash_password kdfW "pw" [4])]))).fst =
        LoginResult.success "admin" ↔
      ∃ stored, dictGet [("admin", hash_password kdfW "pw" [4])] "admin" = some stored ∧
        verify_password kdfW "pw" stored = true) ∧
    ((do_login kdfW [9] "admin" "pw" (some (FileContent.good [("admin", hash_password kdfW "pw" [4])]))).fst =
        LoginResult.success "admin" ∨
      (do_login kdfW [9] "admin" "pw" (some (FileContent.good [("admin", hash_password kdfW "pw" [4])]))).fst =
        LoginResult.invalid) ∧
    (do_login kdfW [9] "admin" "pw" (some (FileContent.good [("admin", hash_password kdfW "pw" [4])]))).snd =
      some (FileContent.good [("admin", hash_password kdfW "pw" [4])]) :=
  claim_C8 kdfW [9] "admin" "pw" [("admin", hash_password kdfW "pw" [4])]

/-- C7: a successful password change (current password verifies, confirmation
matches) installs `hash_password(new_password)` computed with the freshly
drawn salt and writes the whole mapping via `save_users`; the new entry's
salt field decodes to exactly the fresh salt (never the old one), the new
hash verifies the new password and rejects the old one, and afterwards login
with the new password succeeds while login with the old password fails. -/
theorem claim_C7 (kdf : KDF) (bootSalt changeSalt : List Nat)
    (username current new_password : String)
    (users : List (String × String)) (stored : String)
    (hcs : ∀ b ∈ changeSalt, b < 256)
    (hget : dictGet users username = some stored)
    (hv : verify_password kdf current stored = true)
    (hdk1 : ∀ b ∈ kdf (utf8Encode current) changeSalt 200000, b < 256)
    (hdk2 : ∀ b ∈ kdf (utf8Encode new_password) changeSalt 200000, b < 256)
    (hnocol : kdf (utf8Encode current) changeSalt 200000 ≠
      kdf (utf8Encode new_password) changeSalt 200000) :
    change_password kdf bootSalt changeSalt (some username) current new_password new_password
        (some (FileContent.good users)) =
      (ChangeResult.success,
        save_users (dictSet users username (hash_password kdf new_password changeSalt))
          (some (FileContent.good users))) ∧
    dictGet (dictSet users username (hash_password kdf new_password changeSalt)) username =
      some (hash_password kdf new_password changeSalt) ∧
    (splitCh '$' (hash_password kdf new_password changeSalt).data).head? =
      some (bytesToHex changeSalt) ∧
    fromHexAux (bytesToHex changeSalt) = some changeSalt ∧
    verify_password kdf new_password (hash_password kdf new_password changeSalt) = true ∧
    verify_password kdf current (hash_password kdf new_password changeSalt) = false ∧
    (do_login kdf bootSalt username new_password
        (save_users (dictSet users username (hash_password kdf new_password changeSalt))
          (some (FileContent.good users)))).fst = LoginResult.success username ∧
    (do_login kdf bootSalt username current
        (save_users (dictSet users username (hash_password kdf new_password changeSalt))
          (some (FileContent.good users)))).fst = LoginResult.invalid := by
  have h0 := verify_true_ne_empty hv
  have hvf : verify_password kdf current (hash_password kdf new_password changeSalt) = false := by
    rw [verify_other_hash_password kdf current new_password changeSalt hcs]
    cases hb : compare_digest (bytesToHex (kdf (utf8Encode current) changeSalt 200000))
      (bytesToHex (kdf (utf8Encode new_password) changeSalt 200000))
    · rfl
    · exact absurd (bytesToHex_inj hdk1 hdk2 ((compare_digest_eq_true_iff _ _).mp hb)) hnocol
  have hgetNew :=
    dictGet_dictSet_self users username (hash_password kdf new_password changeSalt)
  refine ⟨?_, hgetNew, ?_, fromHexAux_bytesToHex changeSalt hcs,
    verify_hash_password kdf new_password changeSalt hcs, hvf, ?_, ?_⟩
  · rw [change_password_good, hget]
    simp [h0, hv, save_users]
  · rw [hash_password_data, splitCh_append _ _ (dollar_not_mem_bytesToHex changeSalt)]
    rfl
  · show (do_login kdf bootSalt username new_password (some (FileContent.good
      (dictSet users username (hash_password kdf new_password changeSalt))))).fst =
        LoginResult.success username
    rw [do_login_found kdf bootSalt username new_password _ _ hgetNew,
      if_pos ⟨hash_password_ne_empty kdf new_password changeSalt,
        verify_hash_password kdf new_password changeSalt hcs⟩]
  · show (do_login kdf bootSalt username current (some (FileContent.good
      (dictSet users username (hash_password kdf new_password changeSalt))))).fst =
        LoginResult.invalid
    rw [do_login_found kdf bootSalt username current _ _ hgetNew, if_neg ?_]
    rintro ⟨-, hcon⟩
    rw [hvf] at hcon
    exact Bool.false_ne_true hcon

/-- Witness for C7 at a concrete KDF instance: the admin changes the
password from "a" to "bc" with fresh salt `[7]`; the new hash is installed,
its salt field is the fresh salt, login with "bc" succeeds and login with
"a" fails. -/
theorem claim_C7_witness :
    change_password kdfW [9] [7] (some "admin") "a" "bc" "bc"
        (some (FileContent.good [("admin", hash_password kdfW "a" [4])])) =
      (ChangeResult.success,
        save_users
          (dictSet [("admin", hash_password kdfW "a" [4])] "admin"
            (hash_password kdfW "bc" [7]))
          (some (FileContent.good [("admin", hash_password kdfW "a" [4])]))) ∧
    dictGet
        (dictSet [("admin", hash_password kdfW "a" [4])] "admin"
          (hash_password kdfW "bc" [7])) "admin" =
      some (hash_password kdfW "bc" [7]) ∧
    (splitCh '$' (hash_password kdfW "bc" [7]).data).head? = some (bytesToHex [7]) ∧
    fromHexAux (bytesToHex [7]) = some [7] ∧
    verify_password kdfW "bc" (hash_password kdfW "bc" [7]) = true ∧
    verify_password kdfW "a" (hash_password kdfW "bc" [7]) = false ∧
    (do_login kdfW [9] "admin" "bc"
        (save_users
          (dictSet [("admin", hash_password kdfW "a" [4])] "admin"
            (hash_password kdfW "bc" [7]))
          (some (FileContent.good [("admin", hash_password kdfW "a" [4])])))).fst =
      LoginResult.success "admin" ∧
    (do_login kdfW [9] "admin" "a"
        (save_users
          (dictSet [("admin", hash_password kdfW "a" [4])] "admin"
            (hash_password kdfW "bc" [7]))
          (some (FileContent.good [("admin", hash_password kdfW "a" [4])])))).fst =
      LoginResult.invalid :=
  claim_C7 kdfW [9] [7] "admin" "a" "bc"
    [("admin", hash_password kdfW "a" [4])] (hash_password kdfW "a" [4])
    (by decide) rfl (by decide) (by decide) (by decide) (by decide)

/-- C9: `load_users` on a corrupt store file fails with the distinct
corrupt-store error (never an empty or partial mapping) and leaves the file
as it was; on every store state its resulting file state is exactly that of
`ensure_users_file` (it runs the initialisation first), and whenever it
returns a mapping, that mapping is exactly the parsed file content. -/
theorem claim_C9 (kdf : KDF) (bootSalt : List Nat) (st : Store) :
    (load_users kdf bootSalt (some FileContent.corrupt)).fst =
      Except.error LoadError.corruptStore ∧
    (load_users kdf bootSalt (some FileContent.corrupt)).snd = some FileContent.corrupt ∧
    (load_users kdf bootSalt st).snd = ensure_users_file kdf bootSalt st ∧
    (∀ users, (load_users kdf bootSalt st).fst = Except.ok users →
      ensure_users_file kdf bootSalt st = some (FileContent.good users)) := by
  refine ⟨rfl, rfl, ?_, ?_⟩
  · unfold load_users
    rcases he : ensure_users_file kdf bootSalt st with _ | c
    · rfl
    · cases c with
      | good u => rfl
      | corrupt => rfl
  · intro users h
    unfold load_users at h
    rcases he : ensure_users_file kdf bootSalt st with _ | c
    · rw [he] at h
      simp at h
    · rw [he] at h
      cases c with
      | good u =>
        obtain rfl : u = users := Except.ok.inj h
        rfl
      | corrupt => simp at h

/-- Witness for C9 at a concrete KDF instance, boot salt and store state. -/
theorem claim_C9_witness :
    (load_users kdfW [9] (some FileContent.corrupt)).fst =
      Except.error LoadError.corruptStore ∧
    (load_users kdfW [9] (some FileContent.corrupt)).snd = some FileContent.corrupt ∧
    (load_users kdfW [9] (some (FileContent.good [("admin", hash_password kdfW "pw" [4])]))).snd =
      ensure_users_file kdfW [9] (some (FileContent.good [("admin", hash_password kdfW "pw" [4])])) ∧
    (∀ users,
      (load_users kdfW [9] (some (FileContent.good [("admin", hash_password kdfW "pw" [4])]))).fst =
        Except.ok users →
      ensure_users_file kdfW [9] (some (FileContent.good [("admin", hash_password kdfW "pw" [4])])) =
        some (FileContent.good users)) :=
  claim_C9 kdfW [9] (some (FileContent.good [("admin", hash_password kdfW "pw" [4])]))

/-- C10: a successful password change rewrites only the logged-in username's
entry: the handler returns success with the store holding the updated
mapping, every other username's stored hash is unchanged, and the key list
of the mapping is unchanged (no entry added or removed). -/
theorem claim_C10 (kdf : KDF) (bootSalt changeSalt : List Nat)
    (username current new_password : String)
    (users : List (String × String)) (stored : String)
    (hget : dictGet users username = some stored)
    (hv : verify_password kdf current stored = true) :
    change_password kdf bootSalt changeSalt (some username) current new_password new_password
        (some (FileContent.good users)) =
      (ChangeResult.success,
        some (FileContent.good
          (dictSet users username (hash_password kdf new_password changeSalt)))) ∧
    (∀ other, other ≠ username →
      dictGet (dictSet users username (hash_password kdf new_password changeSalt)) other =
        dictGet users other) ∧
    (dictSet users username (hash_password kdf new_password changeSalt)).map Prod.fst =
      users.map Prod.fst := by
  refine ⟨?_, ?_, ?_⟩
  · rw [change_password_good, hget]
    simp [verify_true_ne_empty hv, hv]
  · intro other hne
    exact dictGet_dictSet_ne users username _ other hne
  · exact keys_dictSet users username _ (by rw [hget]; rfl)

/-- Witness for C10 at a concrete KDF instance and a two-entry store: the
entry of "bob" survives the admin's password change byte-for-byte. -/
theorem claim_C10_witness :
    change_password kdfW [9] [7] (some "admin") "a" "bc" "bc"
        (some (FileContent.good
          [("admin", hash_password kdfW "a" [4]), ("bob", "bobhash")])) =
      (ChangeResult.success,
        some (FileContent.good
          (dictSet [("admin", hash_password kdfW "a" [4]), ("bob", "bobhash")] "admin"
            (hash_password kdfW "bc" [7])))) ∧
    (∀ other, other ≠ "admin" →
      dictGet
          (dictSet [("admin", hash_password kdfW "a" [4]), ("bob", "bobhash")] "admin"
            (hash_password kdfW "bc" [7])) other =
        dictGet [("admin", hash_password kdfW "a" [4]), ("bob", "bobhash")] other) ∧
    (dictSet [("admin", hash_password kdfW "a" [4]), ("bob", "bobhash")] "admin"
        (hash_password kdfW "bc" [7])).map Prod.fst =
      [("admin", hash_password kdfW "a" [4]), ("bob", "bobhash")].map Prod.fst :=
  claim_C10 kdfW [9] [7] "admin" "a" "bc"
    [("admin", hash_password kdfW "a" [4]), ("bob", "bobhash")]
    (hash_password kdfW "a" [4]) rfl (by decide)
